import Mathlib

/-!
Verification development for the tweakcc pattern-based patch engine.

Buffers are modelled as `List Char`. Every definition is translated from the
repository source (file and function named in each doc comment); the only
definitions that instead follow the specification's words are clearly marked
as spec-side reference machines, used to compare the code against the spec.
-/

set_option maxRecDepth 10000

/-- Character code 39, the single-quote character. -/
def squote : Char := Char.ofNat 39

/-- Character code 96, the backquote character. -/
def backquote : Char := Char.ofNat 96

/-- The three JS quoting characters recognised by `findMatchingBrace`. -/
def isQuoteChar (c : Char) : Bool := c = '"' || c = squote || c = backquote

/-- Loop of `findMatchingBrace` (src/unnamed/part_001, `src/utils/patterns.ts`
fragment): walks the suffix of the buffer carrying the absolute index `i`, the
brace `depth`, the single `inString` flag (toggled by any of the three quote
characters) and the `escapeNext` flag. -/
def fmbGo : List Char → Nat → Int → Bool → Bool → Option Nat
  | [], _, _, _, _ => none
  | c :: rest, i, depth, inStr, esc =>
    if esc then fmbGo rest (i + 1) depth inStr false
    else if c = '\\' then fmbGo rest (i + 1) depth inStr true
    else if isQuoteChar c then fmbGo rest (i + 1) depth (!inStr) esc
    else if inStr then fmbGo rest (i + 1) depth inStr esc
    else
      let d := if c = '{' then depth + 1 else depth
      if c = '}' then
        if d - 1 = 0 then some i else fmbGo rest (i + 1) (d - 1) inStr esc
      else fmbGo rest (i + 1) d inStr esc

/-- `findMatchingBrace(content, startIndex)` from src/unnamed/part_001: scans
forward from `startIndex` with depth counting, one in-string flag and
backslash escapes, returning the index where depth returns to zero. -/
def findMatchingBrace (content : List Char) (startIndex : Nat) : Option Nat :=
  fmbGo (content.drop startIndex) startIndex 0 false false

/-- Spec-side reference machine for the delimiter scanner, following the
specification's words: the quoted-span state remembers WHICH quote character
opened the span, and a quoting character closes the span only when it matches
the span's opener; while a span is open all delimiter characters are inert;
a backslash escapes the following character. -/
def specFmbGo : List Char → Nat → Int → Option Char → Bool → Option Nat
  | [], _, _, _, _ => none
  | c :: rest, i, depth, q, esc =>
    if esc then specFmbGo rest (i + 1) depth q false
    else if c = '\\' then specFmbGo rest (i + 1) depth q true
    else if isQuoteChar c then
      match q with
      | none => specFmbGo rest (i + 1) depth (some c) esc
      | some qc =>
        if qc = c then specFmbGo rest (i + 1) depth none esc
        else specFmbGo rest (i + 1) depth (some qc) esc
    else if q.isSome then specFmbGo rest (i + 1) depth q esc
    else
      let d := if c = '{' then depth + 1 else depth
      if c = '}' then
        if d - 1 = 0 then some i else specFmbGo rest (i + 1) (d - 1) q esc
      else specFmbGo rest (i + 1) d q esc

/-- Spec-side matching-closer scanner with the same interface as
`findMatchingBrace`. -/
def specFindMatchingBrace (content : List Char) (startIndex : Nat) : Option Nat :=
  specFmbGo (content.drop startIndex) startIndex 0 none false

/-- Buffers whose quote characters are all of one kind: all double quotes,
or all single quotes, or all backquotes. -/
def quotesOfOneKind (content : List Char) : Prop :=
  (∀ c ∈ content, isQuoteChar c = true → c = '"') ∨
  (∀ c ∈ content, isQuoteChar c = true → c = squote) ∨
  (∀ c ∈ content, isQuoteChar c = true → c = backquote)

instance (content : List Char) : Decidable (quotesOfOneKind content) := by
  unfold quotesOfOneKind; infer_instance

/-- The C1 counterexample buffer: an open brace, then a single-quoted string
containing one double quote, then the closing brace. -/
def c1Buffer : List Char := ['{', squote, 'a', '"', squote, '}']

/-!
## A backtracking regular-expression engine

The source locates anchors with JavaScript regular expressions. Each regex
is translated term-for-term into the `RE` syntax below, and matching follows
the standard JS backtracking semantics: alternation prefers the left branch,
`star true` (greedy) prefers one more repetition, `star false` (lazy) prefers
none; a repetition body that consumes nothing ends the repetition. `wb` is the
JS `\b` word boundary (word characters are `[A-Za-z0-9_]`, so `$` is not a
word character, as the source notes). Matching is driven by a fuel counter,
supplied generously at the call sites.
-/

/-- Regular-expression syntax for the engine. -/
inductive RE where
  | eps : RE
  | lit : Char → RE
  | cls : (Char → Bool) → RE
  | wb : RE
  | seq : RE → RE → RE
  | alt : RE → RE → RE
  | star : Bool → RE → RE
  | grp : Nat → RE → RE

/-- JS `\w`: ASCII letters, digits and underscore. -/
def isWordChar (c : Char) : Bool := c.isAlphanum || c = '_'

/-- JS `\b`: previous and next character disagree on word-char-ness. -/
def atWordBoundary (prev next : Option Char) : Bool :=
  let pw := match prev with | some c => isWordChar c | none => false
  let nw := match next with | some c => isWordChar c | none => false
  pw != nw

/-- Captures recorded during a match: group index paired with the consumed
characters; the most recent assignment of a group sits nearest the head. -/
abbrev Caps : Type := List (Nat × List Char)

/-- Backtracking matcher in continuation-passing style. The continuation
receives the character preceding the rest, the rest of the input and the
captures; `none` from the continuation triggers backtracking. -/
def reMatch : Nat → RE → Option Char → List Char → Caps →
    (Option Char → List Char → Caps → Option (List Char × Caps)) →
    Option (List Char × Caps)
  | 0, _, _, _, _, _ => none
  | fuel + 1, r, prev, s, caps, k =>
    match r with
    | .eps => k prev s caps
    | .lit c =>
      match s with
      | [] => none
      | c2 :: rest => if c2 = c then k (some c2) rest caps else none
    | .cls p =>
      match s with
      | [] => none
      | c2 :: rest => if p c2 then k (some c2) rest caps else none
    | .wb => if atWordBoundary prev s.head? then k prev s caps else none
    | .seq a b =>
      reMatch fuel a prev s caps (fun p2 s2 caps2 => reMatch fuel b p2 s2 caps2 k)
    | .alt a b =>
      match reMatch fuel a prev s caps k with
      | some res => some res
      | none => reMatch fuel b prev s caps k
    | .star g a =>
      let once := fun (_ : Unit) =>
        reMatch fuel a prev s caps (fun p2 s2 caps2 =>
          if s2.length < s.length then reMatch fuel (.star g a) p2 s2 caps2 k
          else none)
      if g then
        match once () with
        | some res => some res
        | none => k prev s caps
      else
        match k prev s caps with
        | some res => some res
        | none => once ()
    | .grp i a =>
      reMatch fuel a prev s caps (fun p2 s2 caps2 =>
        k p2 s2 ((i, s.take (s.length - s2.length)) :: caps2))

/-- Fuel budget used by all matchers. -/
def reFuel (content : List Char) : Nat := (content.length + 2) * 4000

/-- A single match: start index, matched length, captures. -/
abbrev REMatch : Type := Nat × Nat × Caps

/-- The index component of a match. -/
def REMatch.idx (m : REMatch) : Nat := m.1

/-- The length component of a match. -/
def REMatch.len (m : REMatch) : Nat := m.2.1

/-- The captures of a match. -/
def REMatch.caps (m : REMatch) : Caps := m.2.2

/-- Look up capture group `i`, most recent assignment first, as JS does when
a group inside a repetition is read after the match. -/
def capGet (caps : Caps) (i : Nat) : Option (List Char) :=
  (caps.find? (fun p => p.1 = i)).map (fun p => p.2)

/-- Attempt a match of `r` anchored at position `i` of `content`; returns the
matched length and the captures. -/
def reRun (r : RE) (content : List Char) (i : Nat) : Option (Nat × Caps) :=
  let rem := content.drop i
  let prev := if i = 0 then none else content.get? (i - 1)
  match reMatch (reFuel content) r prev rem [] (fun _ s caps => some (s, caps)) with
  | some (s, caps) => some (rem.length - s.length, caps)
  | none => none

/-- Leftmost search loop: try positions `i, i+1, ...` in order. -/
def reFindFrom : Nat → RE → List Char → Nat → Option REMatch
  | 0, _, _, _ => none
  | n + 1, r, content, i =>
    match reRun r content i with
    | some (len, caps) => some (i, len, caps)
    | none => if i < content.length then reFindFrom n r content (i + 1) else none

/-- JS `String.prototype.match` with a non-global regex: the leftmost match. -/
def reFind (r : RE) (content : List Char) : Option REMatch :=
  reFindFrom (content.length + 1) r content 0

/-- One step of JS `matchAll`: find the leftmost match at or after `i`. -/
def reFindFromPos (r : RE) (content : List Char) (i : Nat) : Option REMatch :=
  reFindFrom (content.length + 1 - i) r content i

/-- Collect the matches of `matchAll`, advancing past each match (by one
character when the match is empty). -/
def reMatchAllFrom : Nat → RE → List Char → Nat → List REMatch
  | 0, _, _, _ => []
  | n + 1, r, content, i =>
    match reFindFromPos r content i with
    | none => []
    | some (idx, len, caps) =>
      (idx, len, caps) :: reMatchAllFrom n r content (if len = 0 then idx + 1 else idx + len)

/-- JS `String.prototype.matchAll` with a global regex. -/
def reMatchAll (r : RE) (content : List Char) : List REMatch :=
  reMatchAllFrom (content.length + 1) r content 0

/-- Concatenation of a literal character sequence. -/
def reLits : List Char → RE
  | [] => .eps
  | c :: rest => .seq (.lit c) (reLits rest)

/-- Literal string as a regex. -/
def reStr (s : String) : RE := reLits s.data

/-- Alternation over a list, preferring earlier entries; an empty list never
matches. -/
def reAltList : List RE → RE
  | [] => .cls (fun _ => false)
  | [r] => r
  | r :: rest => .alt r (reAltList rest)

/-- `r+` (greedy when `g`). -/
def rePlus (g : Bool) (r : RE) : RE := .seq r (.star g r)

/-- `r?` (greedy when `g`). -/
def reOpt (g : Bool) (r : RE) : RE := if g then .alt r .eps else .alt .eps r

/-- `r{n}`: exactly `n` repetitions. -/
def reRepN : Nat → RE → RE
  | 0, _ => .eps
  | n + 1, r => .seq r (reRepN n r)

/-- JS `[$\w]`. -/
def isDollarWord (c : Char) : Bool := c = '$' || isWordChar c

/-- `[$\w]+`, greedy. -/
def reIdent : RE := rePlus true (.cls isDollarWord)

/-- `[$\w]+?`, lazy. -/
def reIdentLazy : RE := rePlus false (.cls isDollarWord)

/-- `\s*`. -/
def reWs : RE := .star true (.cls Char.isWhitespace)

/-- `.` without the `s` flag: any character but a line terminator. -/
def reDot : RE := .cls (fun c => !(c = '\n' || c = '\r'))

/-- `["']`: double or single quote. -/
def reQuoteCls : RE := .cls (fun c => c = '"' || c = squote)

/-- Sequence a list of regexes. -/
def reSeqList : List RE → RE
  | [] => .eps
  | [r] => r
  | r :: rest => .seq r (reSeqList rest)

/-- Case-insensitive literal character (for JS regexes with the `i` flag). -/
def reLitCI (c : Char) : RE := .cls (fun x => x.toLower = c.toLower)

/-- Case-insensitive literal string. -/
def reStrCI (s : String) : RE := reSeqList (s.data.map reLitCI)

/-- `[^)]+`, greedy. -/
def reNotParen : RE := rePlus true (.cls (fun c => !(c = ')')))

/-- `[^}]*`, greedy. -/
def reNotCloseBraceStar : RE := .star true (.cls (fun c => !(c = '}')))

/-- `[^}]+`, greedy. -/
def reNotCloseBracePlus : RE := rePlus true (.cls (fun c => !(c = '}')))

/-!
## JSON serialization and JS object property order

`writeThemes` renders fragments with `JSON.stringify` over objects built by
`Object.fromEntries` or object literals. ECMAScript enumerates own string
keys with array-index keys first in ascending numeric order, then the
remaining keys in insertion order; `fromEntries` keeps the first insertion
position of a duplicate key while taking its last value.
-/

/-- Digits of a decimal string to a number. -/
def digitsToNat (s : List Char) : Nat :=
  s.foldl (fun acc c => acc * 10 + (c.toNat - 48)) 0

/-- An ECMAScript array-index key: the canonical decimal form of an integer
below 2^32 - 1 (no leading zero except "0" itself). -/
def isArrayIndexStr : List Char → Bool
  | [] => false
  | c :: rest =>
    (c :: rest).all Char.isDigit && (!(c = '0') || rest.isEmpty) &&
      digitsToNat (c :: rest) < 4294967295

/-- `CreateDataProperty` on a property list: overwrite the value in place for
an existing key, append otherwise. -/
def insertProp (props : List (List Char × List Char)) (kv : List Char × List Char) :
    List (List Char × List Char) :=
  if props.any (fun p => p.1 = kv.1) then
    props.map (fun p => if p.1 = kv.1 then (p.1, kv.2) else p)
  else props ++ [kv]

/-- `Object.fromEntries`. -/
def objFromEntries (entries : List (List Char × List Char)) :
    List (List Char × List Char) :=
  entries.foldl insertProp []

/-- Insert into a list sorted by a numeric key. -/
def insertSortedByNat (key : α → Nat) (x : α) : List α → List α
  | [] => [x]
  | y :: ys => if key x ≤ key y then x :: y :: ys else y :: insertSortedByNat key x ys

/-- Sort by a numeric key (insertion sort). -/
def sortByNat (key : α → Nat) (l : List α) : List α :=
  l.foldr (insertSortedByNat key) []

/-- ECMAScript own-property enumeration order: array-index keys ascending,
then the other keys in insertion order. -/
def jsOwnProps (props : List (List Char × List Char)) :
    List (List Char × List Char) :=
  sortByNat (fun p => digitsToNat p.1) (props.filter (fun p => isArrayIndexStr p.1)) ++
    props.filter (fun p => !isArrayIndexStr p.1)

/-- One hexadecimal digit. -/
def hexDigit (n : Nat) : Char :=
  if n < 10 then Char.ofNat (48 + n) else Char.ofNat (87 + n)

/-- JSON escaping of one character, as `JSON.stringify` does for strings. -/
def jsonEscapeChar (c : Char) : List Char :=
  if c = '"' then ['\\', '"']
  else if c = '\\' then ['\\', '\\']
  else if c = '\n' then ['\\', 'n']
  else if c = '\r' then ['\\', 'r']
  else if c = '\t' then ['\\', 't']
  else if c = '\x08' then ['\\', 'b']
  else if c = '\x0c' then ['\\', 'f']
  else if c.toNat < 32 then
    '\\' :: 'u' :: [hexDigit (c.toNat / 4096 % 16), hexDigit (c.toNat / 256 % 16),
      hexDigit (c.toNat / 16 % 16), hexDigit (c.toNat % 16)]
  else [c]

/-- A JSON string literal. -/
def jsonQuote (s : List Char) : List Char :=
  '"' :: (s.map jsonEscapeChar).flatten ++ ['"']

/-- Join with a separator. -/
def joinSep (sep : List Char) (l : List (List Char)) : List Char :=
  (l.intersperse sep).flatten

/-- A JSON object literal over already-ordered properties with string values. -/
def jsonObjOfProps (props : List (List Char × List Char)) : List Char :=
  '{' :: joinSep [','] (props.map (fun p => jsonQuote p.1 ++ ':' :: jsonQuote p.2)) ++ ['}']

/-- `JSON.stringify` of an object with string values: enumerate own
properties in ECMAScript order and render each. -/
def jsonStringifyObj (props : List (List Char × List Char)) : List Char :=
  jsonObjOfProps (jsOwnProps props)

/-!
## themes.ts
-/

/-- A theme as the patch step consumes it: id, display name and the color
record (`Theme` in src/src/utils/types.ts, with `colors` as a property
list). -/
structure Theme where
  id : List Char
  name : List Char
  colors : List (List Char × List Char)
deriving DecidableEq

/-- `switch\s*\(([^)]+)\)\s*\{[^}]*case\s*["']NAME["'][^}]+\}` — the theme
switch pattern of `getThemesLocation` (src/src/utils/patches/themes.ts),
parameterized by the case label. -/
def pSwitchCase (name : String) : RE :=
  reSeqList [reStr "switch", reWs, .lit '(', .grp 1 reNotParen, .lit ')', reWs,
    .lit '{', reNotCloseBraceStar, reStr "case", reWs, reQuoteCls, reLits name.data,
    reQuoteCls, reNotCloseBracePlus, .lit '}']

/-- `switch\s*\(([^)]+)\)\s*\{[^}]*case\s*["'][^"']+["'][^}]+\}` — fallback 2
of the switch chain: any switch with a string case. -/
def pSwitchGeneric : RE :=
  reSeqList [reStr "switch", reWs, .lit '(', .grp 1 reNotParen, .lit ')', reWs,
    .lit '{', reNotCloseBraceStar, reStr "case", reWs, reQuoteCls,
    rePlus true (.cls (fun c => !(c = '"' || c = squote))),
    reQuoteCls, reNotCloseBracePlus, .lit '}']

/-- The ordered switch-pattern chain of `getThemesLocation`: the primary
"light" pattern, then the fallback loop over light/dark/auto/theme, then the
generic pattern. -/
def themeSwitchPatterns : List RE :=
  pSwitchCase "light" ::
    (["light", "dark", "auto", "theme"].map pSwitchCase) ++ [pSwitchGeneric]

/-- `\[(?:\{label:"(?:Dark|Light).+?",value:".+?"\},?)+\]` — the primary
theme-options-array pattern. -/
def pObjArrPrimary : RE :=
  reSeqList [.lit '[',
    rePlus true (reSeqList [.lit '{', reStr "label:\"",
      .alt (reStr "Dark") (reStr "Light"), rePlus false reDot,
      reStr "\",value:\"", rePlus false reDot, reStr "\"\x7d",
      reOpt true (.lit ',')]),
    .lit ']']

/-- `\[(?:\{label:[^}]*theme[^}]*value:[^}]+\},?)+\]` with the `i` flag —
options-array fallback 1. -/
def pObjArrFb1 : RE :=
  reSeqList [.lit '[',
    rePlus true (reSeqList [.lit '{', reStrCI "label:", reNotCloseBraceStar,
      reStrCI "theme", reNotCloseBraceStar, reStrCI "value:",
      reNotCloseBracePlus, .lit '}', reOpt true (.lit ',')]),
    .lit ']']

/-- `\[(?:\{[^}]*label:[^}]*value:[^}]*\},?)+\]` — options-array fallback 2. -/
def pObjArrFb2 : RE :=
  reSeqList [.lit '[',
    rePlus true (reSeqList [.lit '{', reNotCloseBraceStar, reStr "label:",
      reNotCloseBraceStar, reStr "value:", reNotCloseBraceStar, .lit '}',
      reOpt true (.lit ',')]),
    .lit ']']

/-- `\[(?:\{[^}]*"label"[^}]*"value"[^}]+\},?)+\]` — options-array
fallback 3. -/
def pObjArrFb3 : RE :=
  reSeqList [.lit '[',
    rePlus true (reSeqList [.lit '{', reNotCloseBraceStar, reStr "\"label\"",
      reNotCloseBraceStar, reStr "\"value\"", reNotCloseBracePlus, .lit '}',
      reOpt true (.lit ',')]),
    .lit ']']

/-- The ordered options-array chain of `getThemesLocation`. -/
def themeObjArrPatterns : List RE :=
  [pObjArrPrimary, pObjArrFb1, pObjArrFb2, pObjArrFb3]

/-- `return\{(?:[$\w]+?:"(?:Dark|Light).+?",?)+\}` — the primary
theme-mapping-object pattern. -/
def pObjPrimary : RE :=
  reSeqList [reStr "return", .lit '{',
    rePlus true (reSeqList [reIdentLazy, .lit ':', .lit '"',
      .alt (reStr "Dark") (reStr "Light"), rePlus false reDot, .lit '"',
      reOpt true (.lit ',')]),
    .lit '}']

/-- `return\{(?:[$\w]+?:"[^"]+",?)+\}` — mapping-object fallback 1. -/
def pObjFb1 : RE :=
  reSeqList [reStr "return", .lit '{',
    rePlus true (reSeqList [reIdentLazy, .lit ':', .lit '"',
      rePlus true (.cls (fun c => !(c = '"'))), .lit '"', reOpt true (.lit ',')]),
    .lit '}']

/-- `return\{(?:[$\w]+?:[^,}]+,?)+\}` — mapping-object fallback 2. -/
def pObjFb2 : RE :=
  reSeqList [reStr "return", .lit '{',
    rePlus true (reSeqList [reIdentLazy, .lit ':',
      rePlus true (.cls (fun c => !(c = ',' || c = '}'))), reOpt true (.lit ',')]),
    .lit '}']

/-- `return\s*\{[^}]*theme[^}]*\}` with the `i` flag — mapping-object
fallback 3. -/
def pObjFb3 : RE :=
  reSeqList [reStrCI "return", reWs, .lit '{', reNotCloseBraceStar,
    reStrCI "theme", reNotCloseBraceStar, .lit '}']

/-- The ordered mapping-object chain of `getThemesLocation`. -/
def themeObjPatterns : List RE := [pObjPrimary, pObjFb1, pObjFb2, pObjFb3]

/-- An anchor location as themes.ts computes it (`LocationResult` of
src/src/utils/patches/index.ts). -/
structure LocationResult where
  startIndex : Nat
  endIndex : Nat
  identifiers : List (List Char)
deriving DecidableEq

/-- The three locations `getThemesLocation` returns. -/
structure ThemesLocation where
  switchStatement : LocationResult
  objArr : LocationResult
  obj : LocationResult
deriving DecidableEq

/-- Evaluate an ordered strategy chain: the first strategy that yields a
match wins, later strategies are not consulted. -/
def locateFirst : List (List Char → Option REMatch) → List Char → Option REMatch
  | [], _ => none
  | f :: fs, content =>
    match f content with
    | some m => some m
    | none => locateFirst fs content

/-- The switch-strategy chain as buffer functions. -/
def themeSwitchStrategies : List (List Char → Option REMatch) :=
  themeSwitchPatterns.map (fun p => reFind p)

/-- The options-array strategy chain as buffer functions. -/
def themeObjArrStrategies : List (List Char → Option REMatch) :=
  themeObjArrPatterns.map (fun p => reFind p)

/-- The mapping-object strategy chain as buffer functions. -/
def themeObjStrategies : List (List Char → Option REMatch) :=
  themeObjPatterns.map (fun p => reFind p)

/-- JS `String.prototype.trim`. -/
def jsTrim (s : List Char) : List Char :=
  ((s.dropWhile Char.isWhitespace).reverse.dropWhile Char.isWhitespace).reverse

/-- `getThemesLocation` (src/src/utils/patches/themes.ts): locate the theme
switch, the theme options array and the theme mapping object, each through
its fallback chain. -/
def getThemesLocation (oldFile : List Char) : Option ThemesLocation :=
  match locateFirst themeSwitchStrategies oldFile with
  | none => none
  | some sm =>
    match locateFirst themeObjArrStrategies oldFile with
    | none => none
    | some am =>
      match locateFirst themeObjStrategies oldFile with
      | none => none
      | some om =>
        some
          { switchStatement :=
              { startIndex := sm.idx, endIndex := sm.idx + sm.len,
                identifiers := [jsTrim ((capGet sm.caps 1).getD [])] },
            objArr := { startIndex := am.idx, endIndex := am.idx + am.len, identifiers := [] },
            obj := { startIndex := om.idx, endIndex := om.idx + om.len, identifiers := [] } }

/-- `function ([$\w]+)\(A\)\{switch\(A\)\{case"light":return\{` — the primary
pattern of `getColorsFunctionName`. -/
def pColorsPrimary : RE :=
  reSeqList [reStr "function ", .grp 1 reIdent, reStr "(A)", .lit '{',
    reStr "switch(A)", .lit '{', reStr "case\"light\":return", .lit '{']

/-- `function ([\$\w]+)\([\$\w]*\)\{switch\([^}]*case["']NAME["']:return\{` —
fallback 1 of `getColorsFunctionName`, parameterized by the theme case. -/
def pColorsFb1 (name : String) : RE :=
  reSeqList [reStr "function ", .grp 1 reIdent, .lit '(',
    .star true (.cls isDollarWord), .lit ')', .lit '{', reStr "switch(",
    reNotCloseBraceStar, reStr "case", reQuoteCls, reLits name.data, reQuoteCls,
    reStr ":return", .lit '{']

/-- `function ([$\w]+)\([$\w]*\)\{switch\([^}]*case[^}]*return\{` —
fallback 2 of `getColorsFunctionName`. -/
def pColorsFb2 : RE :=
  reSeqList [reStr "function ", .grp 1 reIdent, .lit '(',
    .star true (.cls isDollarWord), .lit ')', .lit '{', reStr "switch(",
    reNotCloseBraceStar, reStr "case", reNotCloseBraceStar, reStr "return", .lit '{']

/-- `(?:const|let|var)\s+([$\w]+)\s*=\s*\([$\w]*\)\s*=>\s*\{[^}]*switch` —
fallback 3, arrow-function form. -/
def pColorsArrow1 : RE :=
  reSeqList [reAltList [reStr "const", reStr "let", reStr "var"],
    rePlus true (.cls Char.isWhitespace), .grp 1 reIdent, reWs, .lit '=', reWs,
    .lit '(', .star true (.cls isDollarWord), .lit ')', reWs, reStr "=>", reWs,
    .lit '{', reNotCloseBraceStar, reStr "switch"]

/-- `(?:const|let|var)\s+([$\w]+)\s*=\s*function\s*\([$\w]*\)\s*\{[^}]*switch`
— fallback 3, function-expression form. -/
def pColorsArrow2 : RE :=
  reSeqList [reAltList [reStr "const", reStr "let", reStr "var"],
    rePlus true (.cls Char.isWhitespace), .grp 1 reIdent, reWs, .lit '=', reWs,
    reStr "function", reWs, .lit '(', .star true (.cls isDollarWord), .lit ')',
    reWs, .lit '{', reNotCloseBraceStar, reStr "switch"]

/-- The ordered pattern chain of `getColorsFunctionName`. -/
def colorsFnPatterns : List RE :=
  pColorsPrimary ::
    (["light", "dark", "auto", "theme"].map pColorsFb1) ++
      [pColorsFb2, pColorsArrow1, pColorsArrow2]

/-- `getColorsFunctionName` (src/src/utils/patches/themes.ts): the name of
the function providing theme colors, through its fallback chain. -/
def getColorsFunctionName (oldFile : List Char) : Option (List Char) :=
  (locateFirst (colorsFnPatterns.map (fun p => reFind p)) oldFile).bind
    (fun m => capGet m.caps 1)

/-- `(function NAME\(A\)\{)` — where `writeThemes` injects the detection
code in the auto-theme path. -/
def pColorsFnDecl (name : List Char) : RE :=
  .grp 1 (reSeqList [reStr "function ", reLits name, reStr "(A)", .lit '{'])

/-- Replace the placeholder `@` by a single quote; used to transcribe JS
text containing single quotes. -/
def atToSquote (s : String) : List Char :=
  s.data.map (fun c => if c = '@' then squote else c)

/-- `generateSystemThemeDetectionCode` (src/src/utils/patches/themes.ts):
the injected system-theme detection JS, transcribed with `@` standing for
the single-quote character. -/
def detectionCode : List Char :=
  atToSquote "\n// System theme detection injected by tweakcc\nconst detectMacOsTheme = () => \x7b\n  const \x7b execSync \x7d = require(@child_process@);\n  try \x7b\n    const result = execSync(@defaults read -g AppleInterfaceStyle 2>/dev/null || echo Light@, \x7b encoding: @utf8@ \x7d).trim();\n    return result === @Dark@ ? @dark@ : @light@;\n  \x7d catch \x7b\n    return @light@;\n  \x7d\n\x7d;\n\nconst detectWindowsTheme = () => \x7b\n  const \x7b execSync \x7d = require(@child_process@);\n  try \x7b\n    const result = execSync(@reg query \"HKCU\\\\Software\\\\Microsoft\\\\Windows\\\\CurrentVersion\\\\Themes\\\\Personalize\" /v AppsUseLightTheme 2>nul || echo 1@, \x7b encoding: @utf8@ \x7d);\n    const match = result.match(/0x([0-9a-fA-F]+)/);\n    return match && parseInt(match[1], 16) === 0 ? @dark@ : @light@;\n  \x7d catch \x7b\n    return @light@;\n  \x7d\n\x7d;\n\nconst detectLinuxTheme = () => \x7b\n  const \x7b execSync \x7d = require(@child_process@);\n  try \x7b\n    const result = execSync(@gsettings get org.gnome.desktop.interface color-scheme 2>/dev/null || gsettings get org.gnome.desktop.interface gtk-theme 2>/dev/null || echo light@, \x7b encoding: @utf8@ \x7d);\n    return result.toLowerCase().includes(@dark@) ? @dark@ : @light@;\n  \x7d catch \x7b\n    return @light@;\n  \x7d\n\x7d;\n\nconst detectSystemTheme = () => \x7b\n  const platform = process.platform;\n  if (platform === @darwin@) return detectMacOsTheme();\n  if (platform === @win32@) return detectWindowsTheme();\n  if (platform === @linux@) return detectLinuxTheme();\n  return @light@;\n\x7d;\n"

/-- Does the theme list contain the auto theme (`themes.some(t => t.id ===
'auto')`)? -/
def hasAutoTheme (themes : List Theme) : Bool :=
  themes.any (fun t => t.id = ("auto").data)

/-- The `return{...}` mapping-object fragment `writeThemes` synthesizes:
`'return' + JSON.stringify(Object.fromEntries(themes.map(t => [t.id,
t.name])))`. -/
def mkObjFragment (themes : List Theme) : List Char :=
  ("return").data ++
    jsonStringifyObj (objFromEntries (themes.map (fun t => (t.id, t.name))))

/-- The options-array fragment: `JSON.stringify(themes.map(t => ({label:
t.name, value: t.id})))`. -/
def mkObjArrFragment (themes : List Theme) : List Char :=
  '[' :: joinSep [',']
    (themes.map (fun t =>
      jsonStringifyObj [(("label").data, t.name), (("value").data, t.id)])) ++ [']']

/-- One ordinary case of the synthesized switch:
`case"ID":return COLORS;\n`. -/
def mkCaseFragment (t : Theme) : List Char :=
  ("case\"").data ++ t.id ++ ("\":return").data ++ jsonStringifyObj t.colors ++
    (";\n").data

/-- The auto case of the synthesized switch, choosing dark or light colors
at runtime. -/
def mkAutoCaseFragment (themes : List Theme) (t : Theme) : List Char :=
  ("case\"auto\":\x7bconst systemTheme=detectSystemTheme();return systemTheme===\"dark\"?").data ++
    jsonStringifyObj (match themes.find? (fun x => x.id = ("dark").data) with
      | some td => td.colors
      | none => t.colors) ++
    (":").data ++
    jsonStringifyObj (match themes.find? (fun x => x.id = ("light").data) with
      | some tl => tl.colors
      | none => t.colors) ++
    (";\x7d\n").data

/-- The fallback theme used for `themes[0]` (never reached on the empty
list, which returns earlier). -/
def emptyTheme : Theme := { id := [], name := [], colors := [] }

/-- The standard synthesized switch statement (no auto theme). -/
def mkSwitchFragmentStd (ident : List Char) (themes : List Theme) : List Char :=
  ("switch(").data ++ ident ++ (")\x7b\n").data ++
    (themes.map mkCaseFragment).flatten ++
    ("default:return").data ++ jsonStringifyObj (themes.headD emptyTheme).colors ++
    (";\n\x7d").data

/-- The synthesized switch statement with system-theme detection. -/
def mkSwitchFragmentAuto (ident : List Char) (themes : List Theme) : List Char :=
  ("switch(").data ++ ident ++ (")\x7b\n").data ++
    (themes.map (fun t =>
      if t.id = ("auto").data then mkAutoCaseFragment themes t
      else mkCaseFragment t)).flatten ++
    ("default:return").data ++ jsonStringifyObj (themes.headD emptyTheme).colors ++
    (";\n\x7d").data

/-- `writeThemes` (src/src/utils/patches/themes.ts): locate the three theme
anchors, return the input unchanged on an empty theme list, replace the
mapping object, the options array and the switch statement in reverse
document order, and in the auto-theme path inject the detection code before
the colors function. -/
def writeThemes (oldFile : List Char) (themes : List Theme) : Option (List Char) :=
  match getThemesLocation oldFile with
  | none => none
  | some locs =>
    if themes.length = 0 then some oldFile
    else
      let f1 := oldFile.take locs.obj.startIndex ++ mkObjFragment themes ++
        oldFile.drop locs.obj.endIndex
      let f2 := f1.take locs.objArr.startIndex ++ mkObjArrFragment themes ++
        f1.drop locs.objArr.endIndex
      if hasAutoTheme themes then
        match getColorsFunctionName f2 with
        | none => none
        | some fnName =>
          match reFind (pColorsFnDecl fnName) f2 with
          | none => none
          | some fm =>
            let f3 := f2.take fm.idx ++ detectionCode ++ f2.drop fm.idx
            some (f3.take locs.switchStatement.startIndex ++
              mkSwitchFragmentAuto (locs.switchStatement.identifiers.headD []) themes ++
              f3.drop locs.switchStatement.endIndex)
      else
        some (f2.take locs.switchStatement.startIndex ++
          mkSwitchFragmentStd (locs.switchStatement.identifiers.headD []) themes ++
          f2.drop locs.switchStatement.endIndex)

/-!
## slashCommands.ts and part_012 locators
-/

/-- `=>\[([$a-zA-Z_][$\w]{1,2},){30}` — the slash-command-array start pattern
of `findSlashCommandListEndPosition` (src/src/utils/patches/slashCommands.ts). -/
def pSlashArrayStart : RE :=
  reSeqList [reStr "=>", .lit '[',
    reRepN 30 (.grp 1 (reSeqList [.cls (fun c => c = '$' || c.isAlpha || c = '_'),
      .cls isDollarWord, reOpt true (.cls isDollarWord), .lit ',']))]

/-- JS `String.prototype.indexOf(c, start)`. -/
def indexOfFrom (content : List Char) (c : Char) (start : Nat) : Option Nat :=
  match (content.drop start).findIdx? (fun x => x = c) with
  | some j => some (start + j)
  | none => none

/-- The forward bracket stack machine of `findSlashCommandListEndPosition`:
`[` raises the level, `]` lowers it, and the index is returned when the level
reaches zero. No quote handling is performed. -/
def bracketGo : List Char → Nat → Int → Option Nat
  | [], _, _ => none
  | c :: rest, i, level =>
    if c = '[' then bracketGo rest (i + 1) (level + 1)
    else if c = ']' then
      if level - 1 = 0 then some i else bracketGo rest (i + 1) (level - 1)
    else bracketGo rest (i + 1) level

/-- `findSlashCommandListEndPosition` (src/src/utils/patches/slashCommands.ts):
find the 30-element array start, the `[` after it, then the matching `]` by
plain bracket counting. -/
def findSlashCommandListEndPosition (fileContents : List Char) : Option Nat :=
  match reFind pSlashArrayStart fileContents with
  | none => none
  | some m =>
    match indexOfFrom fileContents '[' m.idx with
    | none => none
    | some bracketIndex =>
      bracketGo (fileContents.drop (bracketIndex + 1)) (bracketIndex + 1) 1

/-- The backward brace walk of `findTopLevelPositionBeforeSlashCommand`
(src/unnamed/part_012): walking left, `}` enters a block and `{` exits one;
the index of the `{` that brings the level to zero is returned. -/
def braceGo (content : List Char) : Nat → Int → Option Nat
  | 0, level =>
    match content.get? 0 with
    | some c =>
      if c = '}' then none
      else if c = '{' then (if level - 1 = 0 then some 0 else none)
      else none
    | none => none
  | i + 1, level =>
    match content.get? (i + 1) with
    | some c =>
      if c = '}' then braceGo content i (level + 1)
      else if c = '{' then
        if level - 1 = 0 then some (i + 1) else braceGo content i (level - 1)
      else braceGo content i level
    | none => braceGo content i level

/-- The backward semicolon walk of `findTopLevelPositionBeforeSlashCommand`:
the nearest index at or below the start whose character is `;`. -/
def semiGo (content : List Char) : Nat → Option Nat
  | 0 => if content.get? 0 = some ';' then some 0 else none
  | i + 1 => if content.get? (i + 1) = some ';' then some (i + 1) else semiGo content i

/-- `findTopLevelPositionBeforeSlashCommand` (src/unnamed/part_012): from the
end of the slash-command array, walk backwards out of the enclosing block,
then backwards to the previous semicolon, returning the position after it. -/
def findTopLevelPositionBeforeSlashCommand (fileContents : List Char) : Option Nat :=
  match findSlashCommandListEndPosition fileContents with
  | none => none
  | some arrayEnd =>
    match braceGo fileContents arrayEnd 1 with
    | none => none
    | some b =>
      match semiGo fileContents b with
      | none => none
      | some j => some (j + 1)

/-- The property-group subpattern
`(?:KW1|...|KWn):[$\w]+(?:=(?:[^,]+,|[^}]+\})|[,}])` shared by the signature
locators of src/unnamed/part_012. -/
def pPropGroup (keywords : List String) : RE :=
  reSeqList [reAltList (keywords.map reStr), .lit ':', reIdent,
    .alt
      (reSeqList [.lit '=',
        .alt (reSeqList [rePlus true (.cls (fun c => !(c = ','))), .lit ','])
          (reSeqList [rePlus true (.cls (fun c => !(c = '}'))), .lit '}'])])
      (.cls (fun c => c = ',' || c = '}'))]

/-- The signature pattern `function ([$\w]+)\(\{(?:GROUP)+\)` shared by the
component locators of src/unnamed/part_012. -/
def pSignature (keywords : List String) : RE :=
  reSeqList [reStr "function ", .grp 1 reIdent, .lit '(', .lit '{',
    rePlus true (pPropGroup keywords), .lit ')']

/-- The Select component signature pattern of `findSelectComponentName`. -/
def pSelect : RE :=
  pSignature ["isDisabled", "hideIndexes", "visibleOptionCount", "highlightText",
    "options", "defaultValue", "onCancel", "onChange", "onFocus", "focusValue",
    "layout", "disableSelection"]

/-- The Divider component signature pattern of `findDividerComponentName`. -/
def pDivider : RE :=
  pSignature ["orientation", "title", "width", "padding", "titlePadding",
    "titleColor", "titleDimColor", "dividerChar", "dividerColor",
    "dividerDimColor", "boxProps"]

/-- The main app component signature pattern of
`getMainAppComponentBodyStart`. -/
def pAppComponent : RE :=
  pSignature ["commands", "debug", "initialPrompt", "initialTools",
    "initialMessages", "initialCheckpoints", "initialFileHistorySnapshots",
    "mcpClients", "dynamicMcpConfig", "autoConnectIdeFlag", "strictMcpConfig",
    "systemPrompt", "appendSystemPrompt", "onBeforeQuery", "onTurnComplete",
    "disabled"]

/-- The longest-match selection loop shared by the signature locators:
start from the first match and keep any strictly longer one. -/
def pickLongest (first : REMatch) (all : List REMatch) : REMatch :=
  all.foldl (fun best x => if x.len > best.len then x else best) first

/-- `findSelectComponentName` (src/unnamed/part_012): all signature matches,
then the capture of the longest one. -/
def findSelectComponentName (fileContents : List Char) : Option (List Char) :=
  match reMatchAll pSelect fileContents with
  | [] => none
  | m :: rest => capGet (pickLongest m (m :: rest)).caps 1

/-- `findDividerComponentName` (src/unnamed/part_012). -/
def findDividerComponentName (fileContents : List Char) : Option (List Char) :=
  match reMatchAll pDivider fileContents with
  | [] => none
  | m :: rest => capGet (pickLongest m (m :: rest)).caps 1

/-- `getMainAppComponentBodyStart` (src/unnamed/part_012): the end index of
the longest app-component signature match. -/
def getMainAppComponentBodyStart (fileContents : List Char) : Option Nat :=
  match reMatchAll pAppComponent fileContents with
  | [] => none
  | m :: rest =>
    let lm := pickLongest m (m :: rest)
    some (lm.idx + lm.len)

/-!
## index.ts: React variable discovery and its module-level cache
-/

/-- `var ([$\w]+)=\([$\w]+,[$\w]+,[$\w]+\)=>\{` — the module-loader pattern
of `getModuleLoaderFunction` (src/src/utils/patches/index.ts). -/
def pModuleLoader : RE :=
  reSeqList [reStr "var ", .grp 1 reIdent, reStr "=(", reIdent, .lit ',',
    reIdent, .lit ',', reIdent, reStr ")=>", .lit '{']

/-- `getModuleLoaderFunction`: the pattern applied to the first 1000
characters. -/
def getModuleLoaderFunction (fileContents : List Char) : Option (List Char) :=
  (reFind pModuleLoader (fileContents.take 1000)).bind (fun m => capGet m.caps 1)

/-- `var ([$\w]+)=[$\w]+\(\([$\w]+\)=>\{var [$\w]+=Symbol\.for\("react\.element"\)`
— the React module pattern of `getReactModuleNameNonBun`. -/
def pReactNonBun : RE :=
  reSeqList [reStr "var ", .grp 1 reIdent, .lit '=', reIdent, reStr "((",
    reIdent, reStr ")=>", .lit '{', reStr "var ", reIdent,
    reStr "=Symbol.for(\"react.element\")"]

/-- `getReactModuleNameNonBun`. -/
def getReactModuleNameNonBun (fileContents : List Char) : Option (List Char) :=
  (reFind pReactNonBun fileContents).bind (fun m => capGet m.caps 1)

/-- `var ([$\w]+)=[$\w]+\(\(([$\w]+,[$\w]+)\)=>\{[$\w]+\.exports=NAME\(\)`
with the found non-Bun module name spliced in — the Bun-variant pattern of
`getReactModuleFunctionBun`. -/
def pReactBun (name : List Char) : RE :=
  reSeqList [reStr "var ", .grp 1 reIdent, .lit '=', reIdent, reStr "((",
    reIdent, .lit ',', reIdent, reStr ")=>", .lit '{', reIdent,
    reStr ".exports=", reLits name, reStr "()"]

/-- `getReactModuleFunctionBun`. -/
def getReactModuleFunctionBun (fileContents : List Char) : Option (List Char) :=
  match getReactModuleNameNonBun fileContents with
  | none => none
  | some rm => (reFind (pReactBun rm) fileContents).bind (fun m => capGet m.caps 1)

/-- `\b([$\w]+)=ML\(RM\(\),1\)` — the assignment pattern shared by the
non-Bun and Bun lookups of `getReactVar`. -/
def pReactVarAssign (moduleLoader reactModule : List Char) : RE :=
  reSeqList [.wb, .grp 1 reIdent, .lit '=', reLits moduleLoader, .lit '(',
    reLits reactModule, reStr "(),1)"]

/-- The uncached body of `getReactVar` (src/src/utils/patches/index.ts):
module loader, then the non-Bun assignment, then the Bun fallback. -/
def getReactVarCompute (fileContents : List Char) : Option (List Char) :=
  match getModuleLoaderFunction fileContents with
  | none => none
  | some moduleLoader =>
    match getReactModuleNameNonBun fileContents with
    | none => none
    | some reactModuleVarNonBun =>
      match reFind (pReactVarAssign moduleLoader reactModuleVarNonBun) fileContents with
      | some m => capGet m.caps 1
      | none =>
        match getReactModuleFunctionBun fileContents with
        | none => none
        | some reactModuleFunctionBun =>
          match reFind (pReactVarAssign moduleLoader reactModuleFunctionBun) fileContents with
          | some m => capGet m.caps 1
          | none => none

/-- The module-level `reactVarCache` cell: `none` is the initial JS `null`,
`some none` is a stored `undefined`, `some (some v)` a stored name. The
`reactVarCache != null` guard is true exactly for `some (some v)`. -/
abbrev ReactCache : Type := Option (Option (List Char))

/-- `getReactVar` with its module-level cache threaded explicitly: a cache
hit returns the stored name without looking at the buffer; otherwise the
body runs and its result (including a failed `undefined`) is stored. -/
def getReactVar (fileContents : List Char) (cache : ReactCache) :
    Option (List Char) × ReactCache :=
  match cache with
  | some (some v) => (some v, some (some v))
  | _ =>
    let r := getReactVarCompute fileContents
    (r, some r)

/-!
## The patch orchestrator (applyCustomization, src/src/utils/patches/index.ts)
-/

/-- What a patch step's apply function did: returned a string, returned
null/undefined, or threw. -/
inductive StepOutcome where
  | ret : List Char → StepOutcome
  | retNull : StepOutcome
  | thrown : List Char → StepOutcome
deriving DecidableEq

/-- A recorded per-step result (`PatchResult` of
src/src/utils/patches/index.ts). -/
structure PatchResult where
  name : List Char
  success : Bool
  error : Option (List Char)
deriving DecidableEq

/-- The error text recorded for a null/undefined (or falsy) result. -/
def nullResultMsg : List Char := ("Patch function returned null/undefined").data

/-- `trackPatch` (src/src/utils/patches/index.ts, applyCustomization): a
truthy result is a success; a falsy result or a thrown error is recorded as
a failure and yields no replacement buffer. -/
def trackPatch (name : List Char) (outcome : StepOutcome) :
    Option (List Char) × PatchResult :=
  match outcome with
  | .ret r =>
    if r = [] then (none, { name := name, success := false, error := some nullResultMsg })
    else (some r, { name := name, success := true, error := none })
  | .retNull => (none, { name := name, success := false, error := some nullResultMsg })
  | .thrown e => (none, { name := name, success := false, error := some e })

/-- Session events, used to observe the order of the restore and the steps. -/
inductive SessionEvent where
  | restored : SessionEvent
  | step : List Char → SessionEvent
deriving DecidableEq

/-- The orchestrator's step loop: each registered step runs through
`trackPatch` on the current buffer; a successful result replaces the buffer
(`if (result) content = result`), anything else leaves it untouched, and the
loop continues through every remaining step. -/
def runSteps : List (List Char × (List Char → StepOutcome)) → List Char →
    List Char × List PatchResult × List SessionEvent
  | [], content => (content, [], [])
  | (name, f) :: rest, content =>
    let tp := trackPatch name (f content)
    let content2 := match tp.1 with | some r => r | none => content
    let out := runSteps rest content2
    (out.1, tp.2 :: out.2.1, SessionEvent.step name :: out.2.2)

/-- The message thrown by `restoreClijsFromBackup` (src/src/utils/config.ts)
when the permission check fails. -/
def restorePermsErrorMsg : List Char :=
  ("Insufficient permissions to restore cli.js. Check file permissions and disk space.").data

/-- `restoreClijsFromBackup` (src/src/utils/config.ts), NPM path: the
permission check throws on failure; on success the live artifact becomes the
backup content, which the orchestrator then reads. -/
def restoreClijsFromBackup (hasPermissions : Bool) (backupContent : List Char) :
    Except (List Char) (List Char) :=
  if hasPermissions then Except.ok backupContent
  else Except.error restorePermsErrorMsg

/-- `applyCustomization` (src/src/utils/patches/index.ts), NPM path: the
restore runs first and unguarded — its exception propagates — and only then
does the step loop run on the restored content. -/
def applyCustomization (hasPermissions : Bool) (backupContent : List Char)
    (steps : List (List Char × (List Char → StepOutcome))) :
    Except (List Char) (List Char × List PatchResult) × List SessionEvent :=
  match restoreClijsFromBackup hasPermissions backupContent with
  | .error e => (.error e, [])
  | .ok content =>
    let out := runSteps steps content
    (.ok (out.1, out.2.1), SessionEvent.restored :: out.2.2)

/-!
## replaceFileBreakingHardLinks (src/unnamed/part_014) and the snapshot
lifecycle of startupCheck (src/src/utils/config.ts)
-/

/-- A file with content and permission mode. -/
structure FsFile where
  content : List Char
  mode : Nat
deriving DecidableEq

/-- Filesystem operations, recorded in execution order. -/
inductive FsOp where
  | statOp : FsOp
  | unlinkOp : FsOp
  | writeOp : List Char → FsOp
  | chmodOp : Nat → FsOp
deriving DecidableEq

/-- The filesystem state at one path plus the recorded operation trace. -/
abbrev FsState : Type := Option FsFile × List FsOp

/-- The mode `writeFile` creates a fresh file with, before any chmod. -/
def defaultWriteMode : Nat := 438

/-- `fsPromises.stat`: report the mode, record the operation. -/
def fsStat (s : FsState) : Option Nat × FsState :=
  ((s.1).map FsFile.mode, (s.1, s.2 ++ [FsOp.statOp]))

/-- `fsPromises.unlink`: remove the file (breaking hard links). -/
def fsUnlink (s : FsState) : FsState := (none, s.2 ++ [FsOp.unlinkOp])

/-- `fsPromises.writeFile`: create the file fresh. -/
def fsWrite (newContent : List Char) (s : FsState) : FsState :=
  (some { content := newContent, mode := defaultWriteMode }, s.2 ++ [FsOp.writeOp newContent])

/-- `fsPromises.chmod`. -/
def fsChmod (m : Nat) (s : FsState) : FsState :=
  ((s.1).map (fun f => { content := f.content, mode := m }), s.2 ++ [FsOp.chmodOp m])

/-- `replaceFileBreakingHardLinks` (src/unnamed/part_014): stat to record the
original mode (default 0o755 = 493 when the stat fails), unlink to break hard
links (a failure is ignored), write the new content, chmod back to the
recorded mode. -/
def replaceFileBreakingHardLinks (newContent : List Char) (file : Option FsFile) : FsState :=
  let r := fsStat (file, [])
  let originalMode := match r.1 with | some m => m | none => 493
  let s2 := fsUnlink r.2
  let s3 := fsWrite newContent s2
  fsChmod originalMode s3

/-- The world state of the cli.js snapshot lifecycle: the live artifact, the
optional backup snapshot, and the `ccVersion` recorded in the config. -/
structure BackupWorld where
  live : List Char
  backup : Option (List Char)
  ccVersion : List Char
deriving DecidableEq

/-- Snapshot operations of `startupCheck`, in execution order. -/
inductive BackupOp where
  | copyToBackupOp : BackupOp
  | unlinkBackupOp : BackupOp
deriving DecidableEq

/-- `backupClijs` (src/src/utils/config.ts): copy the live cli.js over the
backup file and record the installed version in the config. -/
def backupClijs (w : BackupWorld) (realVersion : List Char) :
    BackupWorld × List BackupOp :=
  ({ live := w.live, backup := some w.live, ccVersion := realVersion },
    [BackupOp.copyToBackupOp])

/-- The cli.js snapshot logic of `startupCheck` (src/src/utils/config.ts):
read `backedUpVersion` from the config first; create an initial backup when
none exists; then, on a version change that was not just backed up, unlink
the old snapshot and capture a fresh one. Returns the final world, the
operation trace and the `wasUpdated` flag. -/
def startupCheck (w : BackupWorld) (realVersion : List Char) :
    BackupWorld × List BackupOp × Bool :=
  let backedUpVersion := w.ccVersion
  let step1 : BackupWorld × List BackupOp × Bool :=
    match w.backup with
    | none =>
      let b := backupClijs w realVersion
      (b.1, b.2, true)
    | some _ => (w, [], false)
  let w1 := step1.1
  let ops1 := step1.2.1
  let hasBackedUp := step1.2.2
  if realVersion = backedUpVersion then (w1, ops1, false)
  else if hasBackedUp then (w1, ops1, true)
  else
    let w2 : BackupWorld := { live := w1.live, backup := none, ccVersion := w1.ccVersion }
    let b := backupClijs w2 realVersion
    (b.1, ops1 ++ BackupOp.unlinkBackupOp :: b.2, true)

/-!
## Concrete example buffers and data used by witnesses and counterexamples
-/

/-- A witness buffer for the scanner: all quotes are double quotes, the
quoted span contains an escaped quote and an unbalanced close brace. -/
def c1WitnessBuf : List Char := ("\x7b\"a\\\"\x7d\":\x7b\x7d\x7d").data

/-- A witness buffer whose quotes are all single quotes, with an unbalanced
close brace inside the quoted span. -/
def c1SquoteBuf : List Char := ['{', squote, '}', squote, '}']

/-- The baseline buffer of the end-to-end theme property: the baseline
switch of the spec plus the options-array and mapping-object anchors. -/
def c4Base : List Char :=
  ("switch(A)\x7bcase\"light\":return\x7btext:\"rgb(0,0,0)\"\x7d\x7d;var O=[\x7blabel:\"Dark m\",value:\"dark\"\x7d];function t()\x7breturn\x7bdark:\"Dark m\"\x7d\x7d").data

/-- The locations `getThemesLocation` finds in `c4Base`. -/
def c4Locs : ThemesLocation :=
  { switchStatement := { startIndex := 0, endIndex := 47, identifiers := [['A']] },
    objArr := { startIndex := 55, endIndex := 86, identifiers := [] },
    obj := { startIndex := 100, endIndex := 121, identifiers := [] } }

/-- A concrete non-auto theme. -/
def tSolar : Theme :=
  { id := ("solar").data, name := ("Solar").data,
    colors := [(("text").data, ("rgb(1,2,3)").data)] }

/-- A second concrete non-auto theme. -/
def tMono : Theme :=
  { id := ("mono").data, name := ("Mono").data,
    colors := [(("text").data, ("rgb(9,9,9)").data)] }

/-- The auto theme used by the C4 counterexample. -/
def tAutoCx : Theme :=
  { id := ("auto").data, name := ("Auto").data,
    colors := [(("text").data, ("rgb(0,0,0)").data)] }

/-- The dark theme used by the C4 counterexample. -/
def tDarkCx : Theme :=
  { id := ("dark").data, name := ("Dark").data,
    colors := [(("text").data, ("rgb(9,9,9)").data)] }

/-- A theme whose id is the integer-like string "2". -/
def c9ThemeTwo : Theme := { id := ("2").data, name := ("A").data, colors := [] }

/-- A theme whose id is the integer-like string "1". -/
def c9ThemeOne : Theme := { id := ("1").data, name := ("B").data, colors := [] }

/-- A theme with a non-integer id, for the C9 witness. -/
def c9ThemeDark : Theme := { id := ("dark").data, name := ("Dark").data, colors := [] }

/-- A second theme with a non-integer id, for the C9 witness. -/
def c9ThemeLight : Theme := { id := ("light").data, name := ("Light").data, colors := [] }

/-- A buffer with two Select signature candidates of different lengths. -/
def selTwoBuf : List Char :=
  ("function W(\x7boptions:A\x7d) function V(\x7boptions:A,onChange:B,onCancel:C\x7d)").data

/-- A buffer with two Divider signature candidates of different lengths. -/
def divTwoBuf : List Char :=
  ("function D(\x7btitle:A\x7d) function E(\x7btitle:A,width:B,padding:C\x7d)").data

/-- A buffer with one app-component signature candidate. -/
def appBuf : List Char := ("function Z(\x7bcommands:A,debug:B\x7d)").data

/-- A buffer containing a 30-element slash-command array inside a block that
is preceded by a semicolon. -/
def slashBuf : List Char :=
  ("q;w\x7bx=()=>[a0,a1,a2,a3,a4,a5,a6,a7,a8,a9,b0,b1,b2,b3,b4,b5,b6,b7,b8,b9,c0,c1,c2,c3,c4,c5,c6,c7,c8,c9,zz]\x7d").data

/-- A buffer whose theme switch has a "dark" case but no "light" case, so
only the third strategy of the switch chain matches. -/
def swDarkBuf : List Char := ("switch(A)\x7bcase\"dark\":x\x7d").data

/-- A buffer on which the React variable resolves to `Q`. -/
def reactBufQ : List Char :=
  ("var L=(a,b,c)=>\x7bvar R=N((z)=>\x7bvar s=Symbol.for(\"react.element\");Q=L(R(),1)").data

/-- A byte-different buffer on which the React variable resolves to `P`. -/
def reactBufP : List Char :=
  ("var L=(a,b,c)=>\x7bvar R=N((z)=>\x7bvar s=Symbol.for(\"react.element\");P=L(R(),1)").data

/-- A concrete step list for the orchestrator witnesses: the middle step
returns null, the others succeed. -/
def c2Steps : List (List Char × (List Char → StepOutcome)) :=
  [(("a").data, fun c => StepOutcome.ret ('x' :: c)),
   (("b").data, fun _ => StepOutcome.retNull),
   (("c").data, fun c => StepOutcome.ret ('y' :: c))]

/-- The initial buffer for the orchestrator witnesses. -/
def c2Content : List Char := ("z").data

/-- A concrete file for the replace-protocol witness. -/
def c7File : FsFile := { content := ("old").data, mode := 420 }

/-- A concrete world with a stale snapshot and a changed installed version. -/
def c7World : BackupWorld :=
  { live := ("live2").data, backup := some (("snap1").data), ccVersion := ("1.0.0").data }

theorem fmbGo_eq_specFmbGo (qk : Char) (s : List Char) :
    ∀ (i : Nat) (depth : Int) (esc : Bool) (b : Bool) (q : Option Char),
      (∀ c ∈ s, isQuoteChar c = true → c = qk) →
      (q = none ∧ b = false ∨ q = some qk ∧ b = true) →
      fmbGo s i depth b esc = specFmbGo s i depth q esc := by
  induction s with
  | nil => intro i depth esc b q _ _; rfl
  | cons c rest ih =>
    intro i depth esc b q hs hq
    have hrest : ∀ x ∈ rest, isQuoteChar x = true → x = qk :=
      fun x hx => hs x (List.mem_cons_of_mem c hx)
    by_cases hesc : esc = true
    · subst hesc
      simp only [fmbGo, specFmbGo, if_pos rfl]
      exact ih (i + 1) depth false b q hrest hq
    · have hesc2 : esc = false := by
        cases esc
        · rfl
        · exact absurd rfl hesc
      subst hesc2
      by_cases hbs : c = '\\'
      · simp only [fmbGo, specFmbGo, hbs]
        simp only [if_neg Bool.false_ne_true, if_pos rfl]
        exact ih (i + 1) depth true b q hrest hq
      · by_cases hquote : isQuoteChar c = true
        · have hdq : c = qk := hs c (List.mem_cons_self c rest) hquote
          rcases hq with ⟨hq1, hb1⟩ | ⟨hq1, hb1⟩
          · subst hq1; subst hb1
            simp only [fmbGo, specFmbGo]
            simp only [if_neg Bool.false_ne_true, if_neg hbs, if_pos hquote]
            have := ih (i + 1) depth false true (some c) hrest (Or.inr ⟨by rw [hdq], rfl⟩)
            simpa using this
          · subst hq1; subst hb1
            simp only [fmbGo, specFmbGo]
            simp only [if_neg Bool.false_ne_true, if_neg hbs, if_pos hquote]
            rw [hdq]
            simp only [if_pos rfl]
            have := ih (i + 1) depth false false none hrest (Or.inl ⟨rfl, rfl⟩)
            simpa using this
        · rcases hq with ⟨hq1, hb1⟩ | ⟨hq1, hb1⟩
          · subst hq1; subst hb1
            simp only [fmbGo, specFmbGo]
            simp only [if_neg Bool.false_ne_true, if_neg hbs, if_neg hquote]
            simp only [Option.isSome_none, if_neg Bool.false_ne_true]
            by_cases hclose : c = '}'
            · simp only [hclose, if_pos rfl]
              by_cases hz : (if c = '{' then depth + 1 else depth) - 1 = 0
              · simp [hclose] at hz ⊢
                simp [hz]
              · simp [hclose] at hz ⊢
                simp [hz]
                exact ih (i + 1) _ false false none hrest (Or.inl ⟨rfl, rfl⟩)
            · simp only [if_neg hclose]
              exact ih (i + 1) _ false false none hrest (Or.inl ⟨rfl, rfl⟩)
          · subst hq1; subst hb1
            simp only [fmbGo, specFmbGo]
            simp only [if_neg Bool.false_ne_true, if_neg hbs, if_neg hquote]
            simp only [if_pos rfl, Option.isSome_some, if_pos rfl]
            exact ih (i + 1) depth false true (some qk) hrest (Or.inr ⟨rfl, rfl⟩)

/-- C1: the scanner agrees with the spec's opener-matching machine on every
buffer whose quote characters are all of a single kind — all double quotes,
or all single quotes, or all backquotes. -/
theorem c1_scanner_one_quote_kind (content : List Char) (startIndex : Nat)
    (h : quotesOfOneKind content) :
    findMatchingBrace content startIndex = specFindMatchingBrace content startIndex := by
  unfold findMatchingBrace specFindMatchingBrace
  rcases h with h | h | h
  · exact fmbGo_eq_specFmbGo '"' (content.drop startIndex) startIndex 0 false false none
      (fun c hc => h c (List.mem_of_mem_drop hc)) (Or.inl ⟨rfl, rfl⟩)
  · exact fmbGo_eq_specFmbGo squote (content.drop startIndex) startIndex 0 false false none
      (fun c hc => h c (List.mem_of_mem_drop hc)) (Or.inl ⟨rfl, rfl⟩)
  · exact fmbGo_eq_specFmbGo backquote (content.drop startIndex) startIndex 0 false false none
      (fun c hc => h c (List.mem_of_mem_drop hc)) (Or.inl ⟨rfl, rfl⟩)

/-- C1 counterexample: in `{'a"'}` the structurally matching closer of the
brace at index 0 is at index 5 (the double quote inside the single-quoted
span is inert for the spec's opener-matching machine), but the scanner
toggles its single flag on the double quote and reports no match. -/
theorem c1_counterexample :
    specFindMatchingBrace c1Buffer 0 = some 5 ∧ findMatchingBrace c1Buffer 0 = none := by
  decide

/-- C1 witness: one buffer whose quotes are all double quotes (with an
escaped quote and an unbalanced brace inside the quoted span) and one whose
quotes are all single quotes; the scanner agrees with the spec machine on
both. -/
theorem c1_scanner_witness :
    quotesOfOneKind c1WitnessBuf ∧
    findMatchingBrace c1WitnessBuf 0 = specFindMatchingBrace c1WitnessBuf 0 ∧
    findMatchingBrace c1WitnessBuf 0 = some 10 ∧
    quotesOfOneKind c1SquoteBuf ∧
    findMatchingBrace c1SquoteBuf 0 = specFindMatchingBrace c1SquoteBuf 0 ∧
    findMatchingBrace c1SquoteBuf 0 = some 4 :=
  ⟨by decide, c1_scanner_one_quote_kind c1WitnessBuf 0 (by decide), by decide,
   by decide, c1_scanner_one_quote_kind c1SquoteBuf 0 (by decide), by decide⟩

theorem locateFirst_first_some (fs : List (List Char → Option REMatch)) :
    ∀ (content : List Char) (k : Nat) (hk : k < fs.length) (m : REMatch),
      (∀ j (hj : j < k), fs.get ⟨j, Nat.lt_trans hj hk⟩ content = none) →
      fs.get ⟨k, hk⟩ content = some m →
      locateFirst fs content = some m := by
  induction fs with
  | nil =>
    intro content k hk
    exact absurd hk (Nat.not_lt_zero k)
  | cons f rest ih =>
    intro content k hk m hnone hsome
    cases k with
    | zero =>
      have hf : f content = some m := hsome
      simp [locateFirst, hf]
    | succ k2 =>
      have hf : f content = none := hnone 0 (Nat.succ_pos k2)
      simp only [locateFirst, hf]
      exact ih content k2 (Nat.lt_of_succ_lt_succ hk) m
        (fun j hj => hnone (j + 1) (Nat.succ_lt_succ hj)) hsome

/-- C3: the switch-anchor chain of `getThemesLocation` respects strategy
priority: when every strategy before position `k` yields no candidate and
strategy `k` yields match `m`, the located anchor is exactly `m`, whatever
any later, broader strategy would match. -/
theorem c3_first_matching_strategy_wins (content : List Char) (k : Nat)
    (hk : k < themeSwitchStrategies.length) (m : REMatch)
    (hnone : ∀ j (hj : j < k),
      themeSwitchStrategies.get ⟨j, Nat.lt_trans hj hk⟩ content = none)
    (hsome : themeSwitchStrategies.get ⟨k, hk⟩ content = some m) :
    locateFirst themeSwitchStrategies content = some m :=
  locateFirst_first_some themeSwitchStrategies content k hk m hnone hsome

/-- C3 witness: on a buffer whose switch has a "dark" case but no "light"
case, the first two strategies fail and the third wins. -/
theorem c3_witness :
    locateFirst themeSwitchStrategies swDarkBuf = some (0, 23, [(1, ['A'])]) :=
  c3_first_matching_strategy_wins swDarkBuf 2 (by decide) (0, 23, [(1, ['A'])])
    (fun j hj => by
      interval_cases j
      · exact (by decide : themeSwitchStrategies.get ⟨0, by decide⟩ swDarkBuf = none)
      · exact (by decide : themeSwitchStrategies.get ⟨1, by decide⟩ swDarkBuf = none))
    (by decide)

theorem pickLongest_mem_and_max (all : List REMatch) : ∀ first : REMatch,
    (pickLongest first all = first ∨ pickLongest first all ∈ all) ∧
    REMatch.len first ≤ REMatch.len (pickLongest first all) ∧
    ∀ x ∈ all, REMatch.len x ≤ REMatch.len (pickLongest first all) := by
  induction all with
  | nil =>
    intro first
    refine ⟨Or.inl rfl, le_refl _, ?_⟩
    intro x hx
    cases hx
  | cons a rest ih =>
    intro first
    have hfold : pickLongest first (a :: rest) =
        pickLongest (if REMatch.len a > REMatch.len first then a else first) rest := rfl
    obtain ⟨hmem, hle, hall⟩ := ih (if REMatch.len a > REMatch.len first then a else first)
    have hf2first : REMatch.len first ≤
        REMatch.len (if REMatch.len a > REMatch.len first then a else first) := by
      by_cases hgt : REMatch.len a > REMatch.len first
      · simp only [if_pos hgt]
        exact le_of_lt hgt
      · simp only [if_neg hgt]
        exact le_refl _
    have hf2a : REMatch.len a ≤
        REMatch.len (if REMatch.len a > REMatch.len first then a else first) := by
      by_cases hgt : REMatch.len a > REMatch.len first
      · simp only [if_pos hgt]
        exact le_refl _
      · simp only [if_neg hgt]
        exact Nat.le_of_not_lt hgt
    refine ⟨?_, ?_, ?_⟩
    · rw [hfold]
      rcases hmem with h | h
      · rw [h]
        by_cases hgt : REMatch.len a > REMatch.len first
        · right
          simp only [if_pos hgt]
          exact List.mem_cons_self a rest
        · left
          simp only [if_neg hgt]
      · right
        exact List.mem_cons_of_mem a h
    · rw [hfold]
      exact le_trans hf2first hle
    · intro x hx
      rw [hfold]
      rcases List.mem_cons.mp hx with h | h
      · rw [h]
        exact le_trans hf2a hle
      · exact hall x h

theorem semiGo_nearest (content : List Char) : ∀ (i j : Nat),
    semiGo content i = some j →
    j ≤ i ∧ content.get? j = some ';' ∧
      ∀ l, j < l → l ≤ i → content.get? l ≠ some ';' := by
  intro i
  induction i with
  | zero =>
    intro j h
    unfold semiGo at h
    by_cases hc : content.get? 0 = some ';'
    · rw [if_pos hc] at h
      injection h with h2
      subst h2
      refine ⟨le_refl 0, hc, ?_⟩
      intro l hl1 hl2
      omega
    · rw [if_neg hc] at h
      cases h
  | succ i2 ih =>
    intro j h
    unfold semiGo at h
    by_cases hc : content.get? (i2 + 1) = some ';'
    · rw [if_pos hc] at h
      injection h with h2
      subst h2
      refine ⟨le_refl _, hc, ?_⟩
      intro l hl1 hl2
      omega
    · rw [if_neg hc] at h
      obtain ⟨hj, hget, hnone⟩ := ih j h
      refine ⟨Nat.le_succ_of_le hj, hget, ?_⟩
      intro l hl1 hl2
      by_cases hli : l = i2 + 1
      · rw [hli]
        exact hc
      · exact hnone l hl1 (by omega)

/-- C8: the documented tie-breaks. The signature locators
(`findSelectComponentName`, `findDividerComponentName`,
`getMainAppComponentBodyStart`) return the candidate whose matched text is
longest among all candidates of the one pattern;
`findTopLevelPositionBeforeSlashCommand` places its result right
after the semicolon NEAREST the brace that opens the block containing the
already-located slash-command-array anchor (no semicolon lies between). -/
theorem c8_tiebreaks :
    (∀ (content : List Char) (m : REMatch) (rest : List REMatch),
       reMatchAll pSelect content = m :: rest →
       ∃ c, (c = m ∨ c ∈ rest) ∧ findSelectComponentName content = capGet (REMatch.caps c) 1 ∧
         REMatch.len m ≤ REMatch.len c ∧ ∀ x ∈ rest, REMatch.len x ≤ REMatch.len c) ∧
    (∀ (content : List Char) (m : REMatch) (rest : List REMatch),
       reMatchAll pDivider content = m :: rest →
       ∃ c, (c = m ∨ c ∈ rest) ∧ findDividerComponentName content = capGet (REMatch.caps c) 1 ∧
         REMatch.len m ≤ REMatch.len c ∧ ∀ x ∈ rest, REMatch.len x ≤ REMatch.len c) ∧
    (∀ (content : List Char) (m : REMatch) (rest : List REMatch),
       reMatchAll pAppComponent content = m :: rest →
       ∃ c, (c = m ∨ c ∈ rest) ∧
         getMainAppComponentBodyStart content = some (REMatch.idx c + REMatch.len c) ∧
         REMatch.len m ≤ REMatch.len c ∧ ∀ x ∈ rest, REMatch.len x ≤ REMatch.len c) ∧
    (∀ (content : List Char) (arrayEnd bpos p : Nat),
       findSlashCommandListEndPosition content = some arrayEnd →
       braceGo content arrayEnd 1 = some bpos →
       findTopLevelPositionBeforeSlashCommand content = some p →
       1 ≤ p ∧ content.get? (p - 1) = some ';' ∧ p - 1 ≤ bpos ∧
         ∀ l, p - 1 < l → l ≤ bpos → content.get? l ≠ some ';') := by
  refine ⟨?_, ?_, ?_, ?_⟩
  · intro content m rest h
    obtain ⟨hmem, hfirst, hall⟩ := pickLongest_mem_and_max (m :: rest) m
    refine ⟨pickLongest m (m :: rest), ?_, ?_, hfirst, ?_⟩
    · rcases hmem with h2 | h2
      · exact Or.inl h2
      · rcases List.mem_cons.mp h2 with h3 | h3
        · exact Or.inl h3
        · exact Or.inr h3
    · simp [findSelectComponentName, h]
    · intro x hx
      exact hall x (List.mem_cons_of_mem m hx)
  · intro content m rest h
    obtain ⟨hmem, hfirst, hall⟩ := pickLongest_mem_and_max (m :: rest) m
    refine ⟨pickLongest m (m :: rest), ?_, ?_, hfirst, ?_⟩
    · rcases hmem with h2 | h2
      · exact Or.inl h2
      · rcases List.mem_cons.mp h2 with h3 | h3
        · exact Or.inl h3
        · exact Or.inr h3
    · simp [findDividerComponentName, h]
    · intro x hx
      exact hall x (List.mem_cons_of_mem m hx)
  · intro content m rest h
    obtain ⟨hmem, hfirst, hall⟩ := pickLongest_mem_and_max (m :: rest) m
    refine ⟨pickLongest m (m :: rest), ?_, ?_, hfirst, ?_⟩
    · rcases hmem with h2 | h2
      · exact Or.inl h2
      · rcases List.mem_cons.mp h2 with h3 | h3
        · exact Or.inl h3
        · exact Or.inr h3
    · simp [getMainAppComponentBodyStart, h]
    · intro x hx
      exact hall x (List.mem_cons_of_mem m hx)
  · intro content arrayEnd bpos p h1 h2 h3
    unfold findTopLevelPositionBeforeSlashCommand at h3
    rw [h1] at h3
    dsimp only at h3
    rw [h2] at h3
    dsimp only at h3
    cases hsg : semiGo content bpos with
    | none =>
      rw [hsg] at h3
      cases h3
    | some j =>
      rw [hsg] at h3
      injection h3 with hp
      obtain ⟨hle, hget, hnone⟩ := semiGo_nearest content bpos j hsg
      subst hp
      refine ⟨Nat.succ_le_succ (Nat.zero_le j), by simpa using hget, by simpa using hle, ?_⟩
      intro l hl1 hl2
      exact hnone l (by omega) hl2

/-- C8 witness: a buffer with two Select candidates (longest wins), a
buffer with two Divider candidates (longest wins), one app-component
candidate, and the slash-command block walk landing right after the nearest
preceding semicolon. -/
theorem c8_witness :
    (∃ c, (c = ((0, 23, [(1, ['W'])]) : REMatch) ∨ c ∈ [((24, 45, [(1, ['V'])]) : REMatch)]) ∧
      findSelectComponentName selTwoBuf = capGet (REMatch.caps c) 1 ∧
      REMatch.len (0, 23, [(1, ['W'])]) ≤ REMatch.len c ∧
      ∀ x ∈ [((24, 45, [(1, ['V'])]) : REMatch)], REMatch.len x ≤ REMatch.len c) ∧
    (∃ c, (c = ((0, 21, [(1, ['D'])]) : REMatch) ∨ c ∈ [((22, 39, [(1, ['E'])]) : REMatch)]) ∧
      findDividerComponentName divTwoBuf = capGet (REMatch.caps c) 1 ∧
      REMatch.len (0, 21, [(1, ['D'])]) ≤ REMatch.len c ∧
      ∀ x ∈ [((22, 39, [(1, ['E'])]) : REMatch)], REMatch.len x ≤ REMatch.len c) ∧
    (∃ c, (c = ((0, 32, [(1, ['Z'])]) : REMatch) ∨ c ∈ ([] : List REMatch)) ∧
      getMainAppComponentBodyStart appBuf = some (REMatch.idx c + REMatch.len c) ∧
      REMatch.len (0, 32, [(1, ['Z'])]) ≤ REMatch.len c ∧
      ∀ x ∈ ([] : List REMatch), REMatch.len x ≤ REMatch.len c) ∧
    (1 ≤ 2 ∧ slashBuf.get? (2 - 1) = some ';' ∧ 2 - 1 ≤ 3 ∧
      ∀ l, 2 - 1 < l → l ≤ 3 → slashBuf.get? l ≠ some ';') :=
  ⟨c8_tiebreaks.1 selTwoBuf (0, 23, [(1, ['W'])]) [(24, 45, [(1, ['V'])])] (by decide),
   c8_tiebreaks.2.1 divTwoBuf (0, 21, [(1, ['D'])]) [(22, 39, [(1, ['E'])])] (by decide),
   c8_tiebreaks.2.2.1 appBuf (0, 32, [(1, ['Z'])]) [] (by decide),
   c8_tiebreaks.2.2.2 slashBuf 103 3 2 (by decide) (by decide) (by decide)⟩

theorem runSteps_length_and_events (steps : List (List Char × (List Char → StepOutcome))) :
    ∀ content, ((runSteps steps content).2.1).length = steps.length ∧
      (runSteps steps content).2.2 = steps.map (fun s => SessionEvent.step s.1) := by
  induction steps with
  | nil =>
    intro content
    simp [runSteps]
  | cons s rest ih =>
    intro content
    obtain ⟨n, f⟩ := s
    simp only [runSteps]
    constructor
    · simp [(ih _).1]
    · simp [(ih _).2]

theorem runSteps_append (s t : List (List Char × (List Char → StepOutcome))) :
    ∀ content,
      (runSteps (s ++ t) content).1 = (runSteps t (runSteps s content).1).1 ∧
      (runSteps (s ++ t) content).2.1 =
        (runSteps s content).2.1 ++ (runSteps t (runSteps s content).1).2.1 ∧
      (runSteps (s ++ t) content).2.2 =
        (runSteps s content).2.2 ++ (runSteps t (runSteps s content).1).2.2 := by
  induction s with
  | nil =>
    intro content
    simp [runSteps]
  | cons hd rest ih =>
    intro content
    obtain ⟨n, f⟩ := hd
    simp only [List.cons_append, runSteps]
    refine ⟨?_, ?_, ?_⟩
    · simp [(ih _).1]
    · simp [(ih _).2.1]
    · simp [(ih _).2.2]

theorem trackPatch_keeps_name (n : List Char) (o : StepOutcome) :
    ((trackPatch n o).2).name = n := by
  cases o with
  | ret r =>
    by_cases hr : r = [] <;> simp [trackPatch, hr]
  | retNull => simp [trackPatch]
  | thrown e => simp [trackPatch]

theorem runSteps_single_not_applied (n : List Char) (f : List Char → StepOutcome)
    (content : List Char)
    (h : f content = StepOutcome.retNull ∨ ∃ e, f content = StepOutcome.thrown e) :
    (runSteps [(n, f)] content).1 = content ∧
    (runSteps [(n, f)] content).2.1 = [(trackPatch n (f content)).2] ∧
    ((trackPatch n (f content)).2).success = false := by
  rcases h with h | ⟨e, h⟩ <;> simp [runSteps, trackPatch, h]

/-- C2: per-step failure isolation in the orchestrator. When the step at
position `k` returns null or throws on the buffer it receives, the buffer
handed to the following steps is exactly the buffer before that step, a
`PatchResult` with `success = false` is recorded for it under its name, and
every registered step still executes and is recorded (the run never aborts
and no exception escapes: `runSteps` is total and always returns one result
and one event per step). -/
theorem c2_step_failure_isolated (steps : List (List Char × (List Char → StepOutcome)))
    (content : List Char) (k : Nat) (hk : k < steps.length)
    (hfail : (steps.get ⟨k, hk⟩).2 ((runSteps (steps.take k) content).1) = StepOutcome.retNull ∨
      ∃ e, (steps.get ⟨k, hk⟩).2 ((runSteps (steps.take k) content).1) = StepOutcome.thrown e) :
    (runSteps (steps.take (k + 1)) content).1 = (runSteps (steps.take k) content).1 ∧
    (∃ pr, ((runSteps steps content).2.1).get? k = some pr ∧ pr.success = false ∧
      pr.name = (steps.get ⟨k, hk⟩).1) ∧
    ((runSteps steps content).2.1).length = steps.length ∧
    (runSteps steps content).2.2 = steps.map (fun s => SessionEvent.step s.1) := by
  have htake : steps.take (k + 1) = steps.take k ++ [steps.get ⟨k, hk⟩] := by
    rw [List.take_succ]
    congr 1
    rw [List.getElem?_eq_getElem hk]
    simp [List.get_eq_getElem]
  have hfail2 : (steps.get ⟨k, hk⟩).2 ((runSteps (steps.take k) content).1) =
        StepOutcome.retNull ∨
      ∃ e, (steps.get ⟨k, hk⟩).2 ((runSteps (steps.take k) content).1) =
        StepOutcome.thrown e := hfail
  obtain ⟨n0, f0, hnf⟩ : ∃ n0 f0, steps.get ⟨k, hk⟩ = (n0, f0) :=
    ⟨(steps.get ⟨k, hk⟩).1, (steps.get ⟨k, hk⟩).2, rfl⟩
  rw [hnf] at htake hfail2
  simp only at hfail2
  have hsingle := runSteps_single_not_applied n0 f0
    ((runSteps (steps.take k) content).1) hfail2
  constructor
  · rw [htake, (runSteps_append (steps.take k) [(n0, f0)] content).1, hsingle.1]
  · constructor
    · have hsplit : steps.take (k + 1) ++ steps.drop (k + 1) = steps :=
        List.take_append_drop (k + 1) steps
      have hres := (runSteps_append (steps.take (k + 1)) (steps.drop (k + 1)) content).2.1
      rw [hsplit] at hres
      have hres2 := (runSteps_append (steps.take k) [(n0, f0)] content).2.1
      rw [← htake] at hres2
      have hlenk : ((runSteps (steps.take k) content).2.1).length = k := by
        rw [(runSteps_length_and_events (steps.take k) content).1]
        simp only [List.length_take]
        omega
      refine ⟨(trackPatch n0 (f0 ((runSteps (steps.take k) content).1))).2, ?_, hsingle.2.2, ?_⟩
      · rw [hres, hres2, hsingle.2.1]
        rw [List.get?_eq_getElem?]
        rw [List.getElem?_append_left (by simp [hlenk])]
        rw [List.getElem?_append_right (le_of_eq hlenk)]
        simp [hlenk]
      · rw [hnf]
        simpa using trackPatch_keeps_name n0 (f0 ((runSteps (steps.take k) content).1))
    · exact runSteps_length_and_events steps content

/-- C2 witness: the three-step list whose middle step returns null, run on
the concrete buffer; the buffer after step 2 equals the buffer before it,
step 2's recorded result is a named failure, and all three steps are
recorded. -/
theorem c2_witness :
    (runSteps (c2Steps.take (1 + 1)) c2Content).1 = (runSteps (c2Steps.take 1) c2Content).1 ∧
    (∃ pr, ((runSteps c2Steps c2Content).2.1).get? 1 = some pr ∧ pr.success = false ∧
      pr.name = (c2Steps.get ⟨1, by decide⟩).1) ∧
    ((runSteps c2Steps c2Content).2.1).length = c2Steps.length ∧
    (runSteps c2Steps c2Content).2.2 = c2Steps.map (fun s => SessionEvent.step s.1) :=
  c2_step_failure_isolated c2Steps c2Content 1 (by decide) (Or.inl (by decide))

/-- C5 counterexample: `getReactVar` memoizes in the module-level cache.
A first session on one buffer discovers `Q`; a second session on a
byte-different buffer whose React variable is `P` still observes the stale
`Q`, unlike a fresh session on that buffer. -/
theorem c5_counterexample :
    (getReactVar reactBufP ((getReactVar reactBufQ none).2)).1 = some (("Q").data) ∧
    (getReactVar reactBufP none).1 = some (("P").data) ∧
    ¬ (some (("Q").data) = some (("P").data)) := by
  refine ⟨by decide, by decide, by decide⟩

/-- C5: two-run determinism of the cached React-variable discovery. On a
byte-identical buffer a repeated run returns exactly what the first run
returned — whatever the cache held beforehand — and a run from the pristine
cache returns exactly the uncached computation, so the output on one buffer
is reproducible across restore-rerun cycles. -/
theorem c5_two_run_determinism (content : List Char) (cache : ReactCache) :
    (getReactVar content ((getReactVar content cache).2)).1 =
      (getReactVar content cache).1 ∧
    (getReactVar content none).1 = getReactVarCompute content := by
  constructor
  · cases cache with
    | none =>
      simp only [getReactVar]
      cases hr : getReactVarCompute content <;> simp
    | some c2 =>
      cases c2 with
      | none =>
        simp only [getReactVar]
        cases hr : getReactVarCompute content <;> simp
      | some v => simp [getReactVar]
  · simp [getReactVar]

/-- C6: Guardian failures are session-fatal and precede all patching. With
failing permissions the restore error propagates verbatim out of
`applyCustomization` and the session trace is empty — no patch step has
executed; and in any session whatsoever, if some step event occurs in the
trace then the restore event is the very first entry of the trace. -/
theorem c6_guardian_failure_fatal (backupContent : List Char)
    (steps : List (List Char × (List Char → StepOutcome))) :
    (applyCustomization false backupContent steps).1 = Except.error restorePermsErrorMsg ∧
    (applyCustomization false backupContent steps).2 = [] ∧
    ∀ hp, ∀ ev ∈ (applyCustomization hp backupContent steps).2,
      (∃ n, ev = SessionEvent.step n) →
      ((applyCustomization hp backupContent steps).2).head? = some SessionEvent.restored := by
  refine ⟨by simp [applyCustomization, restoreClijsFromBackup], by simp [applyCustomization, restoreClijsFromBackup], ?_⟩
  intro hp ev hev hstep
  cases hp with
  | false =>
    simp [applyCustomization, restoreClijsFromBackup] at hev
  | true =>
    simp [applyCustomization, restoreClijsFromBackup]

/-- C6 witness: with permissions denied, the orchestrator session on the
concrete step list fails with the exact restore error and runs nothing; and
in a successful session's trace on the same inputs the restore heads the
trace before the first step event. -/
theorem c6_witness :
    (applyCustomization false c2Content c2Steps).1 = Except.error restorePermsErrorMsg ∧
    (applyCustomization false c2Content c2Steps).2 = [] ∧
    ((applyCustomization true c2Content c2Steps).2).head? = some SessionEvent.restored :=
  ⟨(c6_guardian_failure_fatal c2Content c2Steps).1,
   (c6_guardian_failure_fatal c2Content c2Steps).2.1,
   (c6_guardian_failure_fatal c2Content c2Steps).2.2 true
     (SessionEvent.step (("a").data)) (by decide) ⟨("a").data, rfl⟩⟩

/-- C7: the remove-then-write protocol and the snapshot lifecycle. For an
existing target file the replace operation records the mode by stat, then
unlinks, then writes, then chmods back to the recorded mode — in exactly
that order — leaving the new content with the original mode; and when a
snapshot exists but the installed version differs from the backed-up one,
`startupCheck` unlinks the old snapshot, captures a fresh one from the live
artifact, records the new version and reports an update. -/
theorem c7_replace_protocol_and_version_change (file : FsFile) (newContent : List Char)
    (w : BackupWorld) (realVersion : List Char) (b : List Char)
    (hback : w.backup = some b) (hver : ¬ realVersion = w.ccVersion) :
    (replaceFileBreakingHardLinks newContent (some file)).2 =
      [FsOp.statOp, FsOp.unlinkOp, FsOp.writeOp newContent, FsOp.chmodOp file.mode] ∧
    (replaceFileBreakingHardLinks newContent (some file)).1 =
      some { content := newContent, mode := file.mode } ∧
    (startupCheck w realVersion).2.1 = [BackupOp.unlinkBackupOp, BackupOp.copyToBackupOp] ∧
    (startupCheck w realVersion).1 =
      { live := w.live, backup := some w.live, ccVersion := realVersion } ∧
    (startupCheck w realVersion).2.2 = true := by
  refine ⟨?_, ?_, ?_, ?_, ?_⟩
  · simp [replaceFileBreakingHardLinks, fsStat, fsUnlink, fsWrite, fsChmod]
  · simp [replaceFileBreakingHardLinks, fsStat, fsUnlink, fsWrite, fsChmod]
  · simp [startupCheck, hback, hver, backupClijs]
  · simp [startupCheck, hback, hver, backupClijs]
  · simp [startupCheck, hback, hver, backupClijs]

/-- C7 witness: a concrete file and a concrete world with a stale snapshot
and a changed version. -/
theorem c7_witness :
    (replaceFileBreakingHardLinks (("new").data) (some c7File)).2 =
      [FsOp.statOp, FsOp.unlinkOp, FsOp.writeOp (("new").data), FsOp.chmodOp 420] ∧
    (replaceFileBreakingHardLinks (("new").data) (some c7File)).1 =
      some { content := ("new").data, mode := 420 } ∧
    (startupCheck c7World (("2.0.0").data)).2.1 =
      [BackupOp.unlinkBackupOp, BackupOp.copyToBackupOp] ∧
    (startupCheck c7World (("2.0.0").data)).1 =
      { live := ("live2").data, backup := some (("live2").data), ccVersion := ("2.0.0").data } ∧
    (startupCheck c7World (("2.0.0").data)).2.2 = true :=
  c7_replace_protocol_and_version_change c7File (("new").data) c7World
    (("2.0.0").data) (("snap1").data) rfl (by decide)

/-- C10: with the theme anchors found, the theme step on an empty theme list
is the identity: it returns the input buffer itself, neither null nor an
edited buffer. -/
theorem c10_empty_theme_list_identity (oldFile : List Char) (locs : ThemesLocation)
    (h : getThemesLocation oldFile = some locs) :
    writeThemes oldFile [] = some oldFile := by
  unfold writeThemes
  rw [h]
  simp

/-- C10 witness: the concrete baseline buffer. -/
theorem c10_witness : writeThemes c4Base [] = some c4Base :=
  c10_empty_theme_list_identity c4Base c4Locs (by decide)

theorem foldl_insertProp_of_nodup (entries : List (List Char × List Char)) :
    ∀ acc : List (List Char × List Char),
      (entries.map Prod.fst).Nodup →
      (∀ k ∈ entries.map Prod.fst, ∀ p ∈ acc, ¬ p.1 = k) →
      entries.foldl insertProp acc = acc ++ entries := by
  induction entries with
  | nil =>
    intro acc _ _
    simp
  | cons e rest ih =>
    intro acc hnodup hdisj
    have hnotin : ¬ (acc.any (fun p => p.1 = e.1) = true) := by
      intro hx
      obtain ⟨p, hmem, hp⟩ := List.any_eq_true.mp hx
      exact hdisj e.1 (by simp) p hmem (of_decide_eq_true hp)
    have hstep : insertProp acc e = acc ++ [e] := by
      simp only [insertProp]
      rw [if_neg hnotin]
    have hkey : e.1 ∉ rest.map Prod.fst := by
      have := hnodup
      simp only [List.map_cons, List.nodup_cons] at this
      exact this.1
    have hnodup2 : (rest.map Prod.fst).Nodup := by
      have := hnodup
      simp only [List.map_cons, List.nodup_cons] at this
      exact this.2
    have hdisj2 : ∀ k ∈ rest.map Prod.fst, ∀ p ∈ acc ++ [e], ¬ p.1 = k := by
      intro k hk p hp
      rcases List.mem_append.mp hp with hpa | hpe
      · exact hdisj k (by simp [hk]) p hpa
      · have : p = e := by simpa using hpe
        rw [this]
        intro hpk
        exact hkey (hpk ▸ hk)
    calc (e :: rest).foldl insertProp acc = rest.foldl insertProp (insertProp acc e) := by
          simp [List.foldl_cons]
      _ = rest.foldl insertProp (acc ++ [e]) := by rw [hstep]
      _ = (acc ++ [e]) ++ rest := ih (acc ++ [e]) hnodup2 hdisj2
      _ = acc ++ e :: rest := by simp

theorem objFromEntries_of_nodup (entries : List (List Char × List Char))
    (h : (entries.map Prod.fst).Nodup) : objFromEntries entries = entries := by
  unfold objFromEntries
  rw [foldl_insertProp_of_nodup entries [] h (by simp)]
  simp

theorem jsOwnProps_of_no_index (props : List (List Char × List Char))
    (h : ∀ p ∈ props, isArrayIndexStr p.1 = false) : jsOwnProps props = props := by
  unfold jsOwnProps
  have h1 : props.filter (fun p => isArrayIndexStr p.1) = [] := by
    rw [List.filter_eq_nil_iff]
    intro a ha
    simp [h a ha]
  have h2 : props.filter (fun p => !isArrayIndexStr p.1) = props := by
    rw [List.filter_eq_self]
    intro a ha
    simp [h a ha]
  rw [h1, h2]
  simp [sortByNat]

/-- C9 counterexample: with the integer-like ids "2" and "1" (in that input
order) the synthesized mapping fragment lists "1" before "2" — ECMAScript
orders integer-like keys numerically ahead of insertion order — so the
fragment differs from the insertion-order rendering of the same list. -/
theorem c9_counterexample :
    mkObjFragment [c9ThemeTwo, c9ThemeOne] =
      ("return\x7b\"1\":\"B\",\"2\":\"A\"\x7d").data ∧
    ("return").data ++
        jsonObjOfProps ([c9ThemeTwo, c9ThemeOne].map (fun t => (t.id, t.name))) =
      ("return\x7b\"2\":\"A\",\"1\":\"B\"\x7d").data ∧
    ¬ (mkObjFragment [c9ThemeTwo, c9ThemeOne] =
      ("return").data ++
        jsonObjOfProps ([c9ThemeTwo, c9ThemeOne].map (fun t => (t.id, t.name)))) := by
  refine ⟨by decide, by decide, by decide⟩

/-- C9: for theme lists with distinct ids none of which is an integer-like
(array-index) string, the synthesized mapping fragment lists its keys in
exactly the order the themes appear in the input list; the synthesizer is a
pure function, so byte-identical input lists always yield a byte-identical
fragment. -/
theorem c9_stable_insertion_order (themes : List Theme)
    (hidx : ∀ t ∈ themes, isArrayIndexStr t.id = false)
    (hnodup : (themes.map Theme.id).Nodup) :
    mkObjFragment themes =
      ("return").data ++ jsonObjOfProps (themes.map (fun t => (t.id, t.name))) := by
  unfold mkObjFragment jsonStringifyObj
  congr 1
  have hkeys : ((themes.map (fun t => (t.id, t.name))).map Prod.fst) = themes.map Theme.id := by
    simp [List.map_map]
  have he : objFromEntries (themes.map (fun t => (t.id, t.name))) =
      themes.map (fun t => (t.id, t.name)) := by
    apply objFromEntries_of_nodup
    rw [hkeys]
    exact hnodup
  rw [he]
  apply congrArg
  apply jsOwnProps_of_no_index
  intro p hp
  obtain ⟨t, ht, hpt⟩ := List.mem_map.mp hp
  rw [← hpt]
  exact hidx t ht

/-- C9 witness: two themes with non-integer ids in a fixed order. -/
theorem c9_witness :
    mkObjFragment [c9ThemeDark, c9ThemeLight] =
      ("return").data ++
        jsonObjOfProps ([c9ThemeDark, c9ThemeLight].map (fun t => (t.id, t.name))) :=
  c9_stable_insertion_order [c9ThemeDark, c9ThemeLight] (by decide) (by decide)

/-- C4 counterexample: on the baseline buffer (all three theme anchors
present, located as `c4Locs`) and the two-entry list whose first theme has
id "auto", the theme step returns none — the auto path needs a colors
function declaration the baseline lacks — rather than a buffer with two case
labels and a default. -/
theorem c4_counterexample :
    getThemesLocation c4Base = some c4Locs ∧
    writeThemes c4Base [tAutoCx, tDarkCx] = none := by
  refine ⟨by decide, by decide⟩

/-- C4: on the baseline buffer, for every two-entry theme list with neither
id equal to "auto", the theme step succeeds and the produced buffer is the
baseline with its theme switch replaced by the synthesized switch — which
consists of exactly one case per theme, in the order the list supplies them,
followed by a default case returning the first theme's colors — and with the
options array and mapping object replaced by their synthesized fragments. -/
theorem c4_two_theme_switch (t1 t2 : Theme)
    (h1 : ¬ t1.id = ("auto").data) (h2 : ¬ t2.id = ("auto").data) :
    writeThemes c4Base [t1, t2] =
      some (mkSwitchFragmentStd (("A").data) [t1, t2] ++ ("\x7d;var O=").data ++
        mkObjArrFragment [t1, t2] ++ (";function t()\x7b").data ++
        mkObjFragment [t1, t2] ++ ("\x7d").data) ∧
    mkSwitchFragmentStd (("A").data) [t1, t2] =
      ("switch(A)\x7b\n").data ++ mkCaseFragment t1 ++ mkCaseFragment t2 ++
        ("default:return").data ++ jsonStringifyObj t1.colors ++ (";\n\x7d").data := by
  constructor
  · have hloc : getThemesLocation c4Base = some c4Locs := by decide
    have hauto : hasAutoTheme [t1, t2] = false := by
      simp only [hasAutoTheme, List.any_cons, List.any_nil, Bool.or_false, Bool.or_eq_false_iff,
        decide_eq_false_iff_not]
      exact ⟨h1, h2⟩
    unfold writeThemes
    rw [hloc]
    dsimp only
    rw [if_neg (show ¬ ([t1, t2].length = 0) by simp)]
    rw [hauto]
    simp only [Bool.false_eq_true, if_false]
    have hobjs : c4Locs.obj.startIndex = 100 := rfl
    have hobje : c4Locs.obj.endIndex = 121 := rfl
    have harrs : c4Locs.objArr.startIndex = 55 := rfl
    have harre : c4Locs.objArr.endIndex = 86 := rfl
    have hsws : c4Locs.switchStatement.startIndex = 0 := rfl
    have hswe : c4Locs.switchStatement.endIndex = 47 := rfl
    have hid : c4Locs.switchStatement.identifiers.headD [] = ("A").data := rfl
    rw [hobjs, hobje, harrs, harre, hsws, hswe, hid]
    have h1t : (c4Base.take 100 ++ mkObjFragment [t1, t2] ++ c4Base.drop 121).take 55 =
        c4Base.take 55 := by
      rw [List.append_assoc]
      rw [List.take_append_of_le_length (by decide : (55 : Nat) ≤ (c4Base.take 100).length)]
      rw [List.take_take]
      norm_num
    have h1d : (c4Base.take 100 ++ mkObjFragment [t1, t2] ++ c4Base.drop 121).drop 86 =
        (";function t()\x7b").data ++ (mkObjFragment [t1, t2] ++ c4Base.drop 121) := by
      rw [List.append_assoc]
      rw [List.drop_append_of_le_length (by decide : (86 : Nat) ≤ (c4Base.take 100).length)]
      rw [show (c4Base.take 100).drop 86 = (";function t()\x7b").data from by decide]
    rw [h1t, h1d]
    have h2d : (c4Base.take 55 ++ mkObjArrFragment [t1, t2] ++
          ((";function t()\x7b").data ++ (mkObjFragment [t1, t2] ++ c4Base.drop 121))).drop 47 =
        ("\x7d;var O=").data ++ (mkObjArrFragment [t1, t2] ++
          ((";function t()\x7b").data ++ (mkObjFragment [t1, t2] ++ c4Base.drop 121))) := by
      rw [List.append_assoc]
      rw [List.drop_append_of_le_length (by decide : (47 : Nat) ≤ (c4Base.take 55).length)]
      rw [show (c4Base.take 55).drop 47 = ("\x7d;var O=").data from by decide]
    rw [h2d, List.take_zero]
    rw [show c4Base.drop 121 = ("\x7d").data from by decide]
    simp [List.append_assoc]
  · show mkSwitchFragmentStd (("A").data) [t1, t2] = _
    unfold mkSwitchFragmentStd
    simp only [List.map_cons, List.map_nil, List.flatten_cons, List.flatten_nil,
      List.append_nil, List.headD_cons]
    rw [show (("switch(").data ++ ("A").data ++ (")\x7b\n").data : List Char) =
      ("switch(A)\x7b\n").data from by decide]
    simp [List.append_assoc]

/-- C4 witness: the concrete two-theme list (solar, mono) on the baseline
buffer. -/
theorem c4_witness :
    writeThemes c4Base [tSolar, tMono] =
      some (mkSwitchFragmentStd (("A").data) [tSolar, tMono] ++ ("\x7d;var O=").data ++
        mkObjArrFragment [tSolar, tMono] ++ (";function t()\x7b").data ++
        mkObjFragment [tSolar, tMono] ++ ("\x7d").data) ∧
    mkSwitchFragmentStd (("A").data) [tSolar, tMono] =
      ("switch(A)\x7b\n").data ++ mkCaseFragment tSolar ++ mkCaseFragment tMono ++
        ("default:return").data ++ jsonStringifyObj tSolar.colors ++ (";\n\x7d").data :=
  c4_two_theme_switch tSolar tMono (by decide) (by decide)
